import Mathlib

/-!
Shallow embedding of `src/food_detection_app_streamlit.py` (a Streamlit food
detection app around a YOLO model), together with theorems checking the
natural-language specification against it.

Modelling conventions:
* Real-valued scalars coming out of the model (box corner coordinates,
  confidences) are modelled as rationals `ℚ`.
* Class ids (`int(box.cls[0])`) are indices into a model's label space and
  are therefore modelled as `ℕ`.
* Python dictionaries returned by `process_image` are modelled as a structure
  with one `Option` field per key that some return site sets: a key absent
  from the returned dict is `none`.
* Exceptions raised by library calls (inference, HTTP fetch, image decode,
  model construction) are modelled with `Except String`, the `String` being
  `str(e)`.  All exceptions observable inside `process_image`'s `try` block
  (the inference call and the traversal of its lazy results) surface through
  the single inference call, so the inference function returns
  `Except String` of the fully-forced raw results.
* The inference library and the filesystem are parameters (`infer`,
  `LoadEnv`): the app treats them as black boxes.
-/

namespace FoodDetection

/-- The fixed ten-entry class label table `FOOD_CLASSES` (source lines 25-28). -/
def FOOD_CLASSES : List String :=
  ["Apple Pie", "Chocolate", "French Fries", "Hotdog", "Nachos",
   "Pizza", "onion_rings", "pancakes", "spring_rolls", "tacos"]

/-- The secondary id→name dictionary `coco_food_mapping` (source lines 99-102). -/
def coco_food_mapping : List (ℕ × String) :=
  [(0, "Person"), (1, "Bicycle"), (2, "Car"), (3, "Motorcycle")]

/-- Python `int()` applied to a real scalar: truncation toward zero. -/
def pyInt (q : ℚ) : ℤ :=
  if 0 ≤ q then ⌊q⌋ else ⌈q⌉

/-- Round a rational to the nearest integer, ties to even — the rounding rule
of Python 3's built-in `round`. -/
def roundHalfEven (q : ℚ) : ℤ :=
  if q - ⌊q⌋ < 1/2 then ⌊q⌋
  else if 1/2 < q - ⌊q⌋ then ⌊q⌋ + 1
  else if ⌊q⌋ % 2 = 0 then ⌊q⌋ else ⌊q⌋ + 1

/-- Python `round(x, 2)`: round to two decimal places (ties to even). -/
def pyRound2 (x : ℚ) : ℚ :=
  (roundHalfEven (x * 100) : ℚ) / 100

/-- The class-name resolution of `process_image` (source lines 95-103):
`FOOD_CLASSES[class_id]` when the id is below the table length, otherwise
`coco_food_mapping.get(class_id, f"Object_{class_id}")`. -/
def className (class_id : ℕ) : String :=
  if class_id < FOOD_CLASSES.length then FOOD_CLASSES.getD class_id ""
  else (coco_food_mapping.lookup class_id).getD ("Object_" ++ toString class_id)

/-- Modelled from the spec: the three-tier label resolution policy as the
spec words it — first a valid index into the Class Label Table, then the
secondary id→name mapping, finally the synthesized `"Object_<id>"` label. -/
def labelThreeTier (i : ℕ) : String :=
  match FOOD_CLASSES.get? i with
  | some name => name
  | none =>
    match coco_food_mapping.lookup i with
    | some name => name
    | none => "Object_" ++ toString i

/-- The two-tier resolver with the secondary mapping removed: table entry for
ids inside the table, synthesized `"Object_<id>"` otherwise. -/
def labelTwoTier (i : ℕ) : String :=
  match FOOD_CLASSES.get? i with
  | some name => name
  | none => "Object_" ++ toString i

/-- One raw detection as read off a result box (source lines 88-92): the four
`xyxy` corner coordinates, the confidence scalar and the class id. -/
structure RawBox where
  x1 : ℚ
  y1 : ℚ
  x2 : ℚ
  y2 : ℚ
  conf : ℚ
  cls : ℕ
deriving DecidableEq

/-- One entry of the `detections` list built by `process_image`
(source lines 105-109). -/
structure DetectionRecord where
  class_name : String
  confidence : ℚ
  bbox : ℤ × ℤ × ℤ × ℤ
deriving DecidableEq

/-- The dictionary returned by `process_image`, one `Option` field per key
some return site sets; `none` means the key is absent from that dict. -/
structure DetectionResult where
  success : Option Bool
  detections : Option (List DetectionRecord)
  total_detections : Option ℕ
  error : Option String
deriving DecidableEq

/-- The per-box body of the result loop (source lines 88-109): truncate the
corners with `int(...)`, scale and round the confidence, resolve the label. -/
def convertBox (b : RawBox) : DetectionRecord :=
  { class_name := className b.cls
    confidence := pyRound2 (b.conf * 100)
    bbox := (pyInt b.x1, pyInt b.y1, pyInt b.x2, pyInt b.y2) }

/-- The nested result loop of `process_image` (source lines 82-109): iterate
the results, skip a result whose `boxes` is `None`, and append one converted
record per box to the `detections` accumulator. -/
def collectDetections (results : List (Option (List RawBox))) : List DetectionRecord :=
  results.foldl
    (fun acc boxes =>
      match boxes with
      | none => acc
      | some bs => bs.foldl (fun acc2 b => acc2 ++ [convertBox b]) acc)
    []

/-- `process_image(image, model)` (source lines 72-118).  `infer` is the
inference call `model(image)` together with the traversal of its results; the
second component of the result counts how many times inference was invoked. -/
def process_image {H I : Type}
    (infer : H → I → Except String (List (Option (List RawBox))))
    (image : I) (model : Option H) : DetectionResult × ℕ :=
  match model with
  | none =>
    ({ success := none, detections := none, total_detections := none,
       error := some "Model not loaded" }, 0)
  | some m =>
    match infer m image with
    | Except.error e =>
      ({ success := none, detections := none, total_detections := none,
         error := some ("Error processing image: " ++ e) }, 1)
    | Except.ok results =>
      let detections := collectDetections results
      ({ success := some true, detections := some detections,
         total_detections := some detections.length, error := none }, 1)

/-- The environment `load_model` runs against: which filesystem paths exist
(`os.path.exists`), and what the `YOLO(path)` constructor does on each path
(`Except.error` modelling a raised exception). -/
structure LoadEnv (H : Type) where
  pathExists : String → Bool
  yolo : String → Except String H

/-- The candidate model paths `possible_paths` (source lines 36-42). -/
def possible_paths : List String :=
  ["runs/detect/yolov8n_food101/weights/best.pt",
   "best.pt",
   "model.pt",
   "yolov8n_food101.pt",
   "food_detection_model.pt"]

/-- The candidate loop of `load_model` (source lines 48-56): for each path
that exists, attempt construction; on a construction failure warn and
continue; stop at the first success. -/
def tryPaths {H : Type} (env : LoadEnv H) : List String → Option H
  | [] => none
  | p :: rest =>
    if env.pathExists p then
      match env.yolo p with
      | Except.ok m => some m
      | Except.error _ => tryPaths env rest
    else tryPaths env rest

/-- `load_model()` (source lines 32-70): try the candidate paths in order,
fall back to the built-in `"yolov8n.pt"` identifier, and return `None` when
even the fallback constructor raises (caught by the outer `except`). -/
def load_model {H : Type} (env : LoadEnv H) : Option H :=
  match tryPaths env possible_paths with
  | some m => some m
  | none =>
    match env.yolo "yolov8n.pt" with
    | Except.ok m => some m
    | Except.error _ => none

/-- A Boolean "construction succeeded" test on an attempted construction. -/
def constructsOk {H : Type} : Except String H → Bool
  | Except.ok _ => true
  | Except.error _ => false

/-- Modelled from the spec: `load_model` as the spec words it — the handle
comes from the first candidate path that both exists and constructs
successfully; when no candidate yields a handle, from the built-in fallback
identifier; null only when even the fallback raises. -/
def load_model_spec {H : Type} (env : LoadEnv H) : Option H :=
  match possible_paths.find? (fun p => env.pathExists p && constructsOk (env.yolo p)) with
  | some p => (env.yolo p).toOption
  | none => (env.yolo "yolov8n.pt").toOption

/-- One drawing primitive issued against a PIL `ImageDraw` object
(source lines 142-157): the box outline rectangle, the filled label
background rectangle, or the label text. -/
inductive DrawCmd where
  | rect (x1 y1 x2 y2 : ℤ) (outline : ℕ × ℕ × ℕ) (width : ℕ)
  | fillRect (x1 y1 x2 y2 : ℤ) (fill : ℕ × ℕ × ℕ)
  | text (x y : ℤ) (s : String) (fill : ℕ × ℕ × ℕ)
deriving DecidableEq

/-- A PIL image value: an identifier of the underlying pixel content plus the
drawing operations applied to it so far.  `Image.copy()` copies this value
into a fresh heap slot. -/
structure PILImage where
  base : ℕ
  ops : List DrawCmd
deriving DecidableEq

/-- The environment of `draw_detections_on_image`: the font that the
`try/except` around `ImageFont.truetype("arial.ttf", 16)` selected (either
the scalable font or the bitmap default), as the `draw.textbbox` measurement
it induces on a string, and the Python `str()` rendering of the stored
confidence number. -/
structure DrawEnv where
  truetypeArial : Option (String → ℤ × ℤ × ℤ × ℤ)
  defaultFont : String → ℤ × ℤ × ℤ × ℤ
  confString : ℚ → String

/-- The drawing primitives issued for one detection (source lines 136-157),
in issue order: the bounding-box rectangle, the label background sized from
`draw.textbbox`, and the label text. -/
def detectionCmds (env : DrawEnv) (d : DetectionRecord) : List DrawCmd :=
  let x1 := d.bbox.1
  let y1 := d.bbox.2.1
  let x2 := d.bbox.2.2.1
  let y2 := d.bbox.2.2.2
  let label := d.class_name ++ ": " ++ env.confString d.confidence ++ "%"
  let font := env.truetypeArial.getD env.defaultFont
  let tb := font label
  let text_width := tb.2.2.1 - tb.1
  let text_height := tb.2.2.2 - tb.2.1
  [DrawCmd.rect x1 y1 x2 y2 (0, 255, 0) 3,
   DrawCmd.fillRect x1 (y1 - text_height - 5) (x1 + text_width + 5) y1 (0, 255, 0),
   DrawCmd.text (x1 + 2) (y1 - text_height - 3) label (0, 0, 0)]

/-- Apply one drawing primitive to the image stored at heap slot `a`
(the in-place mutation performed through `ImageDraw.Draw`). -/
def drawCmdAt (store : List PILImage) (a : ℕ) (c : DrawCmd) : List PILImage :=
  match store.get? a with
  | some img => store.set a { img with ops := img.ops ++ [c] }
  | none => store

/-- Apply a list of drawing primitives in order to heap slot `a`. -/
def drawCmdsAt (a : ℕ) (store : List PILImage) (cs : List DrawCmd) : List PILImage :=
  cs.foldl (fun st c => drawCmdAt st a c) store

/-- The pure effect of the drawing loop on one image value. -/
def annotateValue (env : DrawEnv) (img : PILImage) (dets : List DetectionRecord) : PILImage :=
  dets.foldl
    (fun im d => (detectionCmds env d).foldl
      (fun im2 c => { im2 with ops := im2.ops ++ [c] }) im)
    img

/-- `draw_detections_on_image(image, detections)` (source lines 120-159) over
an explicit heap of image objects (`store`, addressed by index): copy the
image at address `a` into a fresh slot, draw every detection's primitives
into that slot, and return the new heap with the address of the annotated
copy. -/
def draw_detections_on_image (env : DrawEnv) (store : List PILImage) (a : ℕ)
    (dets : List DetectionRecord) : List PILImage × ℕ :=
  let img := store.getD a { base := 0, ops := [] }
  let store1 := store ++ [img]
  let a1 := store.length
  let store2 := dets.foldl (fun st d => drawCmdsAt a1 st (detectionCmds env d)) store1
  (store2, a1)

/-- An HTTP response as seen through `requests.get` (status code and body
bytes). -/
structure HttpResponse where
  status_code : ℕ
  content : List ℕ
deriving DecidableEq

/-- The environment of one URL-upload interaction of `main` (source
lines 235-267 and 307-442, with `upload_method` fixed to
"URL Upload (Recommended)"): the text in the URL field, the network
(`requests.get`, `Except.error` modelling a raised exception such as a
timeout), the image decoder (`Image.open` on bytes), the file kept in
`st.session_state.uploaded_file` by an earlier interaction (as its bytes),
whether the "Detect Food Items" button was clicked in this rerun, and the
inference setup passed on to `process_image`. -/
structure UrlEnv (H I : Type) where
  image_url : String
  fetch : String → Except String HttpResponse
  decodeImage : List ℕ → Except String I
  session_uploaded_file : Option (List ℕ)
  detect_clicked : Bool
  infer : H → I → Except String (List (Option (List RawBox)))
  model : Option H

/-- The observable outcome of one interaction: the `st.error` messages shown,
in order, and how many times `process_image` was invoked. -/
structure Outcome where
  errors : List String
  process_image_calls : ℕ
deriving DecidableEq

/-- The detect-button block shared by the two processing branches of `main`
(source lines 325-374 and 390-439): when the button was clicked, run
`process_image` once and surface its error field unless the result's
`success` key is truthy.  Success-path widgets (table, annotated image,
download button) are not tracked. -/
def detectBlock {H I : Type} (env : UrlEnv H I) (errs : List String) (img : I) : Outcome :=
  if env.detect_clicked then
    let r := process_image env.infer img env.model
    if r.1.success = some true then
      { errors := errs, process_image_calls := 1 }
    else
      { errors := errs ++ ["❌ Error: " ++ (r.1.error.getD "Unknown error")],
        process_image_calls := 1 }
  else
    { errors := errs, process_image_calls := 0 }

/-- The URL branch of `main` (source lines 235-267): fetch when the URL field
is non-blank; on a 200 response decode the body into `image` (the mock
`uploaded_file` is built alongside it, so both are set together), on any
other status show the status error, and on a raised exception or decode
failure show the exception error.  Informational and success messages are not
tracked, only `st.error` messages. -/
def urlFetchStep {H I : Type} (env : UrlEnv H I) : List String × Option I :=
  if env.image_url.data.any (fun c => !c.isWhitespace) then
    match env.fetch env.image_url with
    | Except.error e => (["❌ Error loading image from URL: " ++ e], none)
    | Except.ok resp =>
      if resp.status_code == 200 then
        match env.decodeImage resp.content with
        | Except.ok img => ([], some img)
        | Except.error e => (["❌ Error loading image from URL: " ++ e], none)
      else
        (["❌ Failed to load image from URL (Status: " ++ toString resp.status_code ++ ")"],
         none)
  else ([], none)

/-- The processing section of `main` (source lines 307-442): run the detect
block on the freshly uploaded image when there is one, else on the image
decoded from the file kept in session state (surfacing a decode error
inline), else do nothing. -/
def processSection {H I : Type} (env : UrlEnv H I) (errs : List String)
    (image : Option I) : Outcome :=
  match image with
  | some img => detectBlock env errs img
  | none =>
    match env.session_uploaded_file with
    | some bytes =>
      match env.decodeImage bytes with
      | Except.ok img => detectBlock env errs img
      | Except.error e =>
        { errors := errs ++ ["❌ Error loading image: " ++ e], process_image_calls := 0 }
    | none => { errors := errs, process_image_calls := 0 }

/-- One whole URL-upload interaction: the URL fetch branch followed by the
processing section. -/
def urlUploadInteraction {H I : Type} (env : UrlEnv H I) : Outcome :=
  processSection env (urlFetchStep env).1 (urlFetchStep env).2

/-!  Theorems.  -/

/-- C1 (counterexample): the claim says a null model handle makes
`process_image` return the dict `{success: false, error: "Model not loaded"}`.
On the code the returned dict is `{"error": "Model not loaded"}` (source
line 75): it carries no `success` key at all, so its `success` field is
absent rather than `false`. -/
theorem C1_success_key_absent_cex :
    (process_image (fun (_ : Unit) (_ : Unit) => Except.ok ([] : List (Option (List RawBox))))
      () (none : Option Unit)).1.success = none ∧
    (process_image (fun (_ : Unit) (_ : Unit) => Except.ok ([] : List (Option (List RawBox))))
      () (none : Option Unit)).1.success ≠ some false ∧
    (process_image (fun (_ : Unit) (_ : Unit) => Except.ok ([] : List (Option (List RawBox))))
      () (none : Option Unit)).1.error = some "Model not loaded" := by
  refine ⟨rfl, ?_, rfl⟩
  decide

/-- C1 (amended): for every image, if the model handle passed to
`process_image` is null, it returns the dict `{"error": "Model not loaded"}`
— no `success` key, no `detections` key — and performs no inference call
(whatever the inference function would do). -/
theorem C1_null_handle_no_inference (H I : Type)
    (infer : H → I → Except String (List (Option (List RawBox)))) (image : I) :
    process_image infer image (none : Option H) =
      ({ success := none, detections := none, total_detections := none,
         error := some "Model not loaded" }, 0) :=
  rfl

/-- C2 (counterexample): the claim says an exception with message `m` during
inference makes `process_image` return
`{success: false, error: "Error processing image: " + m}`.  On the code the
returned dict is `{"error": "Error processing image: " + m}` (source
line 118): it carries no `success` key, so its `success` field is absent
rather than `false`. -/
theorem C2_success_key_absent_cex :
    (process_image (fun (_ : Unit) (_ : Unit) =>
        (Except.error "boom" : Except String (List (Option (List RawBox)))))
      () (some ())).1.success = none ∧
    (process_image (fun (_ : Unit) (_ : Unit) =>
        (Except.error "boom" : Except String (List (Option (List RawBox)))))
      () (some ())).1.success ≠ some false ∧
    (process_image (fun (_ : Unit) (_ : Unit) =>
        (Except.error "boom" : Except String (List (Option (List RawBox)))))
      () (some ())).1.error = some "Error processing image: boom" := by
  refine ⟨rfl, ?_, rfl⟩
  decide

/-- C2 (amended): for every image and non-null handle, if the inference call
(or the traversal of its results, which surfaces through it) raises an
exception with message `m`, `process_image` catches it and returns the dict
`{"error": "Error processing image: " + m}` — no `success` key — after
exactly one inference invocation; being a total function it always hands a
result back to the caller, so the exception never propagates. -/
theorem C2_inference_exception_caught (H I : Type)
    (infer : H → I → Except String (List (Option (List RawBox))))
    (image : I) (h : H) (m : String)
    (hraise : infer h image = Except.error m) :
    process_image infer image (some h) =
      ({ success := none, detections := none, total_detections := none,
         error := some ("Error processing image: " ++ m) }, 1) := by
  simp only [process_image, hraise]

/-- C2 (witness): the amended theorem at a concrete raising inference call. -/
theorem C2_inference_exception_caught_witness :
    process_image (fun (_ : Unit) (_ : Unit) =>
        (Except.error "boom" : Except String (List (Option (List RawBox)))))
      () (some ()) =
      ({ success := none, detections := none, total_detections := none,
         error := some ("Error processing image: " ++ "boom") }, 1) :=
  C2_inference_exception_caught Unit Unit
    (fun _ _ => Except.error "boom") () () "boom" rfl

/-- Every key of `coco_food_mapping` is one of 0, 1, 2, 3, so lookups of any
id at 4 or above miss. -/
theorem coco_lookup_eq_none (i : ℕ) (h : 4 ≤ i) :
    coco_food_mapping.lookup i = none := by
  have h0 : (i == 0) = false := beq_eq_false_iff_ne.mpr (by omega)
  have h1 : (i == 1) = false := beq_eq_false_iff_ne.mpr (by omega)
  have h2 : (i == 2) = false := beq_eq_false_iff_ne.mpr (by omega)
  have h3 : (i == 3) = false := beq_eq_false_iff_ne.mpr (by omega)
  simp [coco_food_mapping, List.lookup, h0, h1, h2, h3]

/-- C3: the label of a raw detection with class id `i` follows the three-tier
policy — table entry for a valid index into the ten-entry table, then the
secondary mapping, then the synthesized `"Object_<i>"` — and in particular
every id at or above 10 missing from the secondary mapping gets
`"Object_<i>"`, while every id inside the table gets the configured string at
its position. -/
theorem C3_label_resolution :
    (∀ i : ℕ, className i = labelThreeTier i) ∧
    (∀ i : ℕ, 10 ≤ i → coco_food_mapping.lookup i = none →
      className i = "Object_" ++ toString i) ∧
    FOOD_CLASSES.length = 10 ∧
    (∀ i : ℕ, ∀ h : i < FOOD_CLASSES.length, className i = FOOD_CLASSES.get ⟨i, h⟩) := by
  have hlen : FOOD_CLASSES.length = 10 := rfl
  refine ⟨?_, ?_, hlen, ?_⟩
  · intro i
    unfold className labelThreeTier
    by_cases h : i < FOOD_CLASSES.length
    · rw [if_pos h, List.getD_eq_get?, List.get?_eq_get h]
      rfl
    · rw [if_neg h, List.get?_eq_none.mpr (by omega)]
      cases hc : coco_food_mapping.lookup i <;> simp [hc]
  · intro i h10 hlk
    unfold className
    rw [if_neg (by omega), hlk]
    rfl
  · intro i h
    unfold className
    rw [if_pos h, List.getD_eq_get?, List.get?_eq_get h]
    rfl

/-- C3 (witness): the three-tier resolution at the concrete ids 12 (beyond
the table and the secondary mapping) and 5 (inside the table). -/
theorem C3_label_resolution_witness :
    className 12 = "Object_12" ∧ className 5 = "Pizza" := by
  have h1 := C3_label_resolution.2.1 12 (by omega) (coco_lookup_eq_none 12 (by omega))
  have h2 := C3_label_resolution.2.2.2 5 (by decide)
  exact ⟨h1.trans rfl, h2.trans rfl⟩

/-- C10: the secondary mapping can never determine a label — each of its keys
is a valid index into the ten-entry table, every id outside the table misses
it — so label resolution coincides everywhere with the two-tier resolver that
drops the secondary mapping entirely. -/
theorem C10_secondary_mapping_dead :
    (∀ p ∈ coco_food_mapping, p.1 < FOOD_CLASSES.length) ∧
    (∀ i : ℕ, FOOD_CLASSES.length ≤ i → coco_food_mapping.lookup i = none) ∧
    (∀ i : ℕ, className i = labelTwoTier i) := by
  refine ⟨by decide, ?_, ?_⟩
  · intro i h
    exact coco_lookup_eq_none i (by revert h; simp [FOOD_CLASSES]; omega)
  · intro i
    unfold className labelTwoTier
    by_cases h : i < FOOD_CLASSES.length
    · rw [if_pos h, List.getD_eq_get?, List.get?_eq_get h]
      rfl
    · rw [if_neg h, List.get?_eq_none.mpr (by omega),
        coco_lookup_eq_none i (by revert h; simp [FOOD_CLASSES]; omega)]
      rfl

/-- C10 (witness): at the concrete id 42 the secondary lookup misses and the
full resolver agrees with the two-tier resolver; at id 2 (a secondary-map
key) the table wins. -/
theorem C10_secondary_mapping_dead_witness :
    coco_food_mapping.lookup 42 = none ∧
    className 42 = labelTwoTier 42 ∧ className 2 = "French Fries" := by
  have h1 := C10_secondary_mapping_dead.2.1 42 (by decide)
  have h2 := C10_secondary_mapping_dead.2.2 42
  have h3 := C10_secondary_mapping_dead.2.2 2
  exact ⟨h1, h2, h3.trans rfl⟩

/-- C4: for every raw confidence scalar in `[0,1]` the stored confidence is
`round(c*100, 2)`; the example `c = 0.8675` stores `86.75`; and the rounding
is lossy — the record keeps no trace of the raw scalar, so any raw scalar
with the same rounded percentage yields the identical record. -/
theorem C4_confidence_rounding :
    (∀ b : RawBox, 0 ≤ b.conf → b.conf ≤ 1 →
      (convertBox b).confidence = pyRound2 (b.conf * 100)) ∧
    (convertBox { x1 := 0, y1 := 0, x2 := 0, y2 := 0,
                  conf := (8675 : ℚ)/10000, cls := 0 }).confidence = (8675 : ℚ)/100 ∧
    (∀ (b : RawBox) (c : ℚ), pyRound2 (c * 100) = pyRound2 (b.conf * 100) →
      convertBox { b with conf := c } = convertBox b) := by
  refine ⟨fun b _ _ => rfl, ?_, ?_⟩
  · show pyRound2 ((8675 : ℚ)/10000 * 100) = (8675 : ℚ)/100
    norm_num [pyRound2, roundHalfEven]
  · intro b c h
    simp [convertBox, h]

/-- C4 (witness): the rounding law at the concrete raw confidence 0.913. -/
theorem C4_confidence_rounding_witness :
    (convertBox { x1 := 0, y1 := 0, x2 := 0, y2 := 0,
                  conf := (913 : ℚ)/1000, cls := 5 }).confidence = pyRound2 ((913 : ℚ)/1000 * 100) ∧
    pyRound2 ((913 : ℚ)/1000 * 100) = (913 : ℚ)/10 :=
  ⟨C4_confidence_rounding.1
      { x1 := 0, y1 := 0, x2 := 0, y2 := 0, conf := (913 : ℚ)/1000, cls := 5 }
      (by norm_num) (by norm_num),
   by norm_num [pyRound2, roundHalfEven]⟩

/-- C5: every stored bounding-box corner is the raw corner truncated toward
zero (`pyInt` sits between 0 and the raw value: its absolute value never
exceeds the raw one and misses it by less than 1); on the input 4.9 it stores
4, whereas round-to-nearest would store 5. -/
theorem C5_box_truncation :
    (∀ b : RawBox, (convertBox b).bbox = (pyInt b.x1, pyInt b.y1, pyInt b.x2, pyInt b.y2)) ∧
    (∀ q : ℚ, |(pyInt q : ℚ)| ≤ |q| ∧ |q| < |(pyInt q : ℚ)| + 1) ∧
    pyInt ((49 : ℚ)/10) = 4 ∧
    ⌊(49 : ℚ)/10 + 1/2⌋ = 5 := by
  refine ⟨fun b => rfl, ?_, by norm_num [pyInt], by norm_num⟩
  intro q
  by_cases hq : 0 ≤ q
  · rw [pyInt, if_pos hq]
    have h1 : (0 : ℚ) ≤ (⌊q⌋ : ℚ) := by
      exact_mod_cast Int.floor_nonneg.mpr hq
    rw [abs_of_nonneg hq, abs_of_nonneg h1]
    exact ⟨Int.floor_le q, Int.lt_floor_add_one q⟩
  · push_neg at hq
    rw [pyInt, if_neg (not_le.mpr hq)]
    have hceil : ((⌈q⌉ : ℚ)) ≤ 0 := by
      have h0 : ⌈q⌉ ≤ (0 : ℤ) := Int.ceil_le.mpr (by exact_mod_cast hq.le)
      exact_mod_cast h0
    rw [abs_of_neg hq, abs_of_nonpos hceil]
    refine ⟨by linarith [Int.le_ceil q], by linarith [Int.ceil_lt_add_one q]⟩

/-- A construction attempt fails exactly when it raised some exception. -/
theorem constructsOk_eq_false_iff {H : Type} (r : Except String H) :
    constructsOk r = false ↔ ∃ e, r = Except.error e := by
  cases r <;> simp [constructsOk]

/-- The candidate loop returns the handle constructed from the first path
that exists and constructs successfully, and nothing otherwise. -/
theorem tryPaths_eq_find {H : Type} (env : LoadEnv H) (l : List String) :
    tryPaths env l =
      (l.find? (fun p => env.pathExists p && constructsOk (env.yolo p))).bind
        (fun p => (env.yolo p).toOption) := by
  induction l with
  | nil => rfl
  | cons p rest ih =>
    cases hex : env.pathExists p with
    | false => simp [tryPaths, List.find?, hex, ih]
    | true =>
      cases hy : env.yolo p with
      | ok m => simp [tryPaths, List.find?, hex, hy, constructsOk, Except.toOption]
      | error e => simp [tryPaths, List.find?, hex, hy, constructsOk, ih]

/-- C6: `load_model` agrees everywhere with the spec's description — the
handle built from the first candidate path that both exists and constructs
successfully, else the handle built from the built-in `"yolov8n.pt"`
fallback — and it returns null exactly when every candidate path is missing
or fails to construct and the fallback construction itself raises. -/
theorem C6_load_model_first_match_fallback (H : Type) (env : LoadEnv H) :
    load_model env = load_model_spec env ∧
    (load_model env = none ↔
      (∀ p ∈ possible_paths,
        env.pathExists p = false ∨ ∃ e, env.yolo p = Except.error e) ∧
      ∃ e, env.yolo "yolov8n.pt" = Except.error e) := by
  constructor
  · unfold load_model load_model_spec
    rw [tryPaths_eq_find]
    cases hf : possible_paths.find?
        (fun p => env.pathExists p && constructsOk (env.yolo p)) with
    | none =>
      cases hy : env.yolo "yolov8n.pt" <;> simp [hy, Except.toOption]
    | some p =>
      have hp := List.find?_some hf
      have hok : constructsOk (env.yolo p) = true := by
        have hp' : env.pathExists p = true ∧ constructsOk (env.yolo p) = true := by
          simpa using hp
        exact hp'.2
      cases hy : env.yolo p with
      | ok m => simp [hy, Except.toOption]
      | error e => rw [hy] at hok; simp [constructsOk] at hok
  · unfold load_model
    rw [tryPaths_eq_find]
    cases hf : possible_paths.find?
        (fun p => env.pathExists p && constructsOk (env.yolo p)) with
    | none =>
      have hall : ∀ p ∈ possible_paths,
          env.pathExists p = false ∨ ∃ e, env.yolo p = Except.error e := by
        intro p hmem
        have hfalse := List.find?_eq_none.mp hf p hmem
        have hfalse' : (env.pathExists p && constructsOk (env.yolo p)) = false := by
          simpa using hfalse
        cases hex : env.pathExists p with
        | false => exact Or.inl rfl
        | true =>
          rw [hex, Bool.true_and] at hfalse'
          exact Or.inr ((constructsOk_eq_false_iff _).mp hfalse')
      cases hy : env.yolo "yolov8n.pt" with
      | ok m => simp [hy]
      | error e => simpa [hy] using hall
    | some p =>
      have hp := List.find?_some hf
      have hmem := List.mem_of_find?_eq_some hf
      have hp' : env.pathExists p = true ∧ constructsOk (env.yolo p) = true := by
        simpa using hp
      cases hy : env.yolo p with
      | ok m =>
        constructor
        · intro h
          simp [hy, Except.toOption] at h
        · rintro ⟨hall, -⟩
          rcases hall p hmem with h1 | ⟨e, h2⟩
          · rw [hp'.1] at h1
            exact Bool.noConfusion h1
          · rw [hy] at h2
            exact Except.noConfusion h2
      | error e =>
        have hok := hp'.2
        rw [hy] at hok
        simp [constructsOk] at hok

/-- C6 (witness): on a filesystem where only `"model.pt"` exists and
constructs, `load_model` picks it and matches the spec description. -/
theorem C6_load_model_first_match_fallback_witness :
    load_model { pathExists := fun p => p == "model.pt",
                 yolo := fun p => if p == "model.pt" then Except.ok 7 else Except.error "no" } =
      load_model_spec { pathExists := fun p => p == "model.pt",
                        yolo := fun p => if p == "model.pt" then Except.ok 7
                                         else Except.error "no" } ∧
    load_model { pathExists := fun p => p == "model.pt",
                 yolo := fun p => if p == "model.pt" then Except.ok 7 else Except.error "no" } =
      some 7 :=
  ⟨(C6_load_model_first_match_fallback ℕ _).1, by decide⟩

/-- Appending one converted record per box, left to right, is mapping the
conversion over the boxes. -/
theorem foldl_append_eq_map (bs : List RawBox) (acc : List DetectionRecord) :
    bs.foldl (fun acc2 b => acc2 ++ [convertBox b]) acc = acc ++ bs.map convertBox := by
  induction bs generalizing acc with
  | nil => simp
  | cons b bs ih => simp [ih]

/-- The nested result loop produces the converted boxes in raw order. -/
theorem collectDetections_eq_map (results : List (Option (List RawBox))) :
    collectDetections results = ((results.filterMap id).flatten).map convertBox := by
  suffices h : ∀ acc : List DetectionRecord,
      results.foldl
        (fun acc boxes =>
          match boxes with
          | none => acc
          | some bs => bs.foldl (fun acc2 b => acc2 ++ [convertBox b]) acc)
        acc = acc ++ ((results.filterMap id).flatten).map convertBox by
    simpa [collectDetections] using h []
  induction results with
  | nil => simp
  | cons r rs ih =>
    intro acc
    cases r with
    | none => simpa using ih acc
    | some bs =>
      rw [List.foldl_cons]
      show List.foldl _ (bs.foldl (fun acc2 b => acc2 ++ [convertBox b]) acc) rs = _
      rw [ih, foldl_append_eq_map]
      simp [List.filterMap_cons, List.append_assoc]

/-- C7: on a successful call, the output detection list is exactly the
per-box conversion mapped over the raw detections in the order the model
returned them (results concatenated left to right, boxes in box order), and
the reported total is its length — no re-sorting of any kind. -/
theorem C7_order_preserved (H I : Type)
    (infer : H → I → Except String (List (Option (List RawBox))))
    (image : I) (h : H) (raws : List (Option (List RawBox)))
    (hok : infer h image = Except.ok raws) :
    (process_image infer image (some h)).1.detections =
      some (((raws.filterMap id).flatten).map convertBox) ∧
    (process_image infer image (some h)).1.total_detections =
      some ((raws.filterMap id).flatten.length) := by
  simp [process_image, hok, collectDetections_eq_map]
  have hlen : (List.length ∘ List.map convertBox) = (List.length : List RawBox → ℕ) := by
    funext l
    simp
  rw [hlen]

/-- C7 (witness): the order-preservation law at a concrete two-result raw
output, using the spec's end-to-end example box. -/
theorem C7_order_preserved_witness :
    (process_image
        (fun (_ : Unit) (_ : Unit) => Except.ok
          [some [{ x1 := (102 : ℚ)/10, y1 := (209 : ℚ)/10, x2 := (1104 : ℚ)/10,
                   y2 := (2201 : ℚ)/10, conf := (913 : ℚ)/1000, cls := 5 }],
           none,
           some [{ x1 := 0, y1 := 0, x2 := 1, y2 := 1, conf := (1 : ℚ)/2, cls := 42 }]])
        () (some ())).1.detections =
      some ((((([some [{ x1 := (102 : ℚ)/10, y1 := (209 : ℚ)/10, x2 := (1104 : ℚ)/10,
                         y2 := (2201 : ℚ)/10, conf := (913 : ℚ)/1000, cls := 5 }],
                 none,
                 some [{ x1 := 0, y1 := 0, x2 := 1, y2 := 1, conf := (1 : ℚ)/2, cls := 42 }]] :
                List (Option (List RawBox))).filterMap id).flatten).map convertBox)) :=
  (C7_order_preserved Unit Unit _ () () _ rfl).1

/-- Drawing one primitive into slot `a` leaves every other slot alone. -/
theorem drawCmdAt_get?_ne (store : List PILImage) (a i : ℕ) (c : DrawCmd) (h : i ≠ a) :
    (drawCmdAt store a c).get? i = store.get? i := by
  unfold drawCmdAt
  cases hg : store.get? a with
  | none => rfl
  | some img => exact List.get?_set_ne _ _ (fun he => h he.symm)

/-- Drawing one primitive into slot `a` appends it to the image stored
there. -/
theorem drawCmdAt_get?_eq (store : List PILImage) (a : ℕ) (c : DrawCmd) (img : PILImage)
    (hg : store.get? a = some img) :
    (drawCmdAt store a c).get? a = some { img with ops := img.ops ++ [c] } := by
  unfold drawCmdAt
  rw [hg, List.get?_set_eq, hg]
  rfl

/-- Drawing a primitive list into slot `a` leaves every other slot alone. -/
theorem drawCmdsAt_get?_ne (cs : List DrawCmd) (store : List PILImage) (a i : ℕ)
    (h : i ≠ a) : (drawCmdsAt a store cs).get? i = store.get? i := by
  induction cs generalizing store with
  | nil => rfl
  | cons c cs ih =>
    show (drawCmdsAt a (drawCmdAt store a c) cs).get? i = _
    rw [ih, drawCmdAt_get?_ne _ _ _ _ h]

/-- Drawing a primitive list into slot `a` appends it, in order, to the image
stored there. -/
theorem drawCmdsAt_get?_eq (cs : List DrawCmd) (store : List PILImage) (a : ℕ)
    (img : PILImage) (hg : store.get? a = some img) :
    (drawCmdsAt a store cs).get? a =
      some (cs.foldl (fun im c => { im with ops := im.ops ++ [c] }) img) := by
  induction cs generalizing store img with
  | nil => exact hg
  | cons c cs ih =>
    show (drawCmdsAt a (drawCmdAt store a c) cs).get? a = _
    exact ih _ _ (drawCmdAt_get?_eq store a c img hg)

/-- The detection loop of the annotator leaves every slot other than `a`
alone. -/
theorem drawLoop_get?_ne (env : DrawEnv) (dets : List DetectionRecord)
    (store : List PILImage) (a i : ℕ) (h : i ≠ a) :
    ((dets.foldl (fun st d => drawCmdsAt a st (detectionCmds env d)) store).get? i) =
      store.get? i := by
  induction dets generalizing store with
  | nil => rfl
  | cons d dets ih =>
    show ((dets.foldl _ (drawCmdsAt a store (detectionCmds env d))).get? i) = _
    rw [ih, drawCmdsAt_get?_ne _ _ _ _ h]

/-- The detection loop of the annotator applies the pure annotation to the
image stored in slot `a`. -/
theorem drawLoop_get?_eq (env : DrawEnv) (dets : List DetectionRecord)
    (store : List PILImage) (a : ℕ) (img : PILImage) (hg : store.get? a = some img) :
    ((dets.foldl (fun st d => drawCmdsAt a st (detectionCmds env d)) store).get? a) =
      some (annotateValue env img dets) := by
  induction dets generalizing store img with
  | nil => exact hg
  | cons d dets ih =>
    show ((dets.foldl _ (drawCmdsAt a store (detectionCmds env d))).get? a) = _
    exact ih _ _ (drawCmdsAt_get?_eq _ _ _ _ hg)

/-- C8: `draw_detections_on_image` draws only on a fresh copy of its input —
after the call the caller's image slot holds exactly what it held before, the
returned address is a different slot, and that slot holds the pure annotation
of the input image value, so two independent copies of the same source image
annotated with the same detection list are identical. -/
theorem C8_draw_on_copy_only (env : DrawEnv) (store : List PILImage) (a : ℕ)
    (dets : List DetectionRecord) (h : a < store.length) :
    (draw_detections_on_image env store a dets).1.get? a = store.get? a ∧
    (draw_detections_on_image env store a dets).2 ≠ a ∧
    (draw_detections_on_image env store a dets).1.get?
        (draw_detections_on_image env store a dets).2 =
      some (annotateValue env (store.getD a { base := 0, ops := [] }) dets) := by
  unfold draw_detections_on_image
  refine ⟨?_, ?_, ?_⟩
  case refine_2 =>
    show store.length ≠ a
    omega
  · show ((dets.foldl _ (store ++ [store.getD a { base := 0, ops := [] }])).get? a) = _
    rw [drawLoop_get?_ne env dets _ _ _ (by omega), List.get?_append h]
  · show ((dets.foldl _ (store ++ [store.getD a { base := 0, ops := [] }])).get? store.length) = _
    exact drawLoop_get?_eq env dets _ _ _ (List.get?_concat_length _ _)

/-- C8 (witness): the copy-only law at a concrete one-image heap and one
concrete detection. -/
theorem C8_draw_on_copy_only_witness :
    (draw_detections_on_image
        { truetypeArial := none, defaultFont := fun _ => (0, 0, 8, 11),
          confString := fun _ => "91.3" }
        [{ base := 5, ops := [] }] 0
        [{ class_name := "Pizza", confidence := (913 : ℚ)/10, bbox := (10, 20, 110, 220) }]).1.get? 0 =
      some { base := 5, ops := [] } ∧
    (draw_detections_on_image
        { truetypeArial := none, defaultFont := fun _ => (0, 0, 8, 11),
          confString := fun _ => "91.3" }
        [{ base := 5, ops := [] }] 0
        [{ class_name := "Pizza", confidence := (913 : ℚ)/10, bbox := (10, 20, 110, 220) }]).2 ≠ 0 := by
  have h := C8_draw_on_copy_only
    { truetypeArial := none, defaultFont := fun _ => (0, 0, 8, 11),
      confString := fun _ => "91.3" }
    [{ base := 5, ops := [] }] 0
    [{ class_name := "Pizza", confidence := (913 : ℚ)/10, bbox := (10, 20, 110, 220) }]
    (by decide)
  exact ⟨h.1.trans rfl, h.2.1⟩

/-- The detect block never removes already-shown error messages: its output
message list extends the input one. -/
theorem detectBlock_errors_extend {H I : Type} (env : UrlEnv H I) (errs : List String)
    (img : I) : ∃ t, (detectBlock env errs img).errors = errs ++ t := by
  unfold detectBlock
  split
  · by_cases hs : (process_image env.infer img env.model).1.success = some true
    · exact ⟨[], by simp [hs]⟩
    · exact ⟨["❌ Error: " ++ ((process_image env.infer img env.model).1.error.getD "Unknown error")],
        by simp [hs]⟩
  · exact ⟨[], by simp⟩

/-- The processing section never removes already-shown error messages. -/
theorem processSection_errors_extend {H I : Type} (env : UrlEnv H I) (errs : List String)
    (image : Option I) : ∃ t, (processSection env errs image).errors = errs ++ t := by
  unfold processSection
  split
  · exact detectBlock_errors_extend env errs _
  · split
    · split
      · exact detectBlock_errors_extend env errs _
      · exact ⟨_, rfl⟩
    · exact ⟨[], by simp⟩

/-- With no fresh image and nothing retained in session state, the processing
section does nothing. -/
theorem processSection_no_image_no_session {H I : Type} (env : UrlEnv H I)
    (errs : List String) (hs : env.session_uploaded_file = none) :
    processSection env errs none = { errors := errs, process_image_calls := 0 } := by
  unfold processSection
  rw [hs]

/-- C9 (counterexample): the claim says a URL upload whose fetch returns a
non-200 status never invokes `process_image` in that interaction.  In the
interaction where the fetch returns 404 while a previously uploaded file is
still in `st.session_state.uploaded_file` and the detect button is clicked,
the status error is shown and yet `process_image` runs once (on the stale
session image, via the `elif` branch of source lines 377-439). -/
theorem C9_stale_session_cex :
    (urlUploadInteraction
        { image_url := "u",
          fetch := fun _ => Except.ok { status_code := 404, content := [] },
          decodeImage := fun _ => Except.ok (0 : ℕ),
          session_uploaded_file := some [],
          detect_clicked := true,
          infer := fun (_ : ℕ) (_ : ℕ) => Except.ok [],
          model := some 0 }).process_image_calls = 1 ∧
    (urlUploadInteraction
        { image_url := "u",
          fetch := fun _ => Except.ok { status_code := 404, content := [] },
          decodeImage := fun _ => Except.ok (0 : ℕ),
          session_uploaded_file := some [],
          detect_clicked := true,
          infer := fun (_ : ℕ) (_ : ℕ) => Except.ok [],
          model := some 0 }).errors =
      ["❌ Failed to load image from URL (Status: " ++ toString (404 : ℕ) ++ ")"] :=
  ⟨rfl, rfl⟩

/-- C9 (amended): for every URL upload whose fetch returns a non-200 status,
the interaction surfaces an inline error containing the status code, and —
provided no previously uploaded file is retained in session state — it does
not invoke `process_image`; the normalizer is never invoked on anything
derived from the failed URL in any case, as the URL branch yields no image. -/
theorem C9_non200_status_error (H I : Type) (env : UrlEnv H I) (resp : HttpResponse)
    (hurl : env.image_url.data.any (fun c => !c.isWhitespace) = true)
    (hfetch : env.fetch env.image_url = Except.ok resp)
    (hstatus : resp.status_code ≠ 200) :
    ("❌ Failed to load image from URL (Status: " ++ toString resp.status_code ++ ")") ∈
      (urlUploadInteraction env).errors ∧
    (env.session_uploaded_file = none →
      (urlUploadInteraction env).process_image_calls = 0) := by
  have hbeq : (resp.status_code == 200) = false := beq_eq_false_iff_ne.mpr hstatus
  have hstep : urlFetchStep env =
      (["❌ Failed to load image from URL (Status: " ++ toString resp.status_code ++ ")"],
       (none : Option I)) := by
    unfold urlFetchStep
    rw [if_pos hurl, hfetch]
    simp [hbeq]
  unfold urlUploadInteraction
  rw [hstep]
  constructor
  · obtain ⟨t, ht⟩ := processSection_errors_extend env
      ["❌ Failed to load image from URL (Status: " ++ toString resp.status_code ++ ")"]
      (none : Option I)
    rw [ht]
    exact List.mem_append_left _ (by simp)
  · intro hs
    rw [processSection_no_image_no_session env _ hs]

/-- C9 (witness): the amended theorem at a concrete 404 response with an
empty session. -/
theorem C9_non200_status_error_witness :
    ("❌ Failed to load image from URL (Status: " ++ toString (404 : ℕ) ++ ")") ∈
      (urlUploadInteraction
        { image_url := "u",
          fetch := fun _ => Except.ok { status_code := 404, content := [] },
          decodeImage := fun _ => Except.ok (0 : ℕ),
          session_uploaded_file := none,
          detect_clicked := true,
          infer := fun (_ : ℕ) (_ : ℕ) => Except.ok [],
          model := some 0 }).errors ∧
    (urlUploadInteraction
        { image_url := "u",
          fetch := fun _ => Except.ok { status_code := 404, content := [] },
          decodeImage := fun _ => Except.ok (0 : ℕ),
          session_uploaded_file := none,
          detect_clicked := true,
          infer := fun (_ : ℕ) (_ : ℕ) => Except.ok [],
          model := some 0 }).process_image_calls = 0 := by
  have h := C9_non200_status_error ℕ ℕ
    { image_url := "u",
      fetch := fun _ => Except.ok { status_code := 404, content := [] },
      decodeImage := fun _ => Except.ok (0 : ℕ),
      session_uploaded_file := none,
      detect_clicked := true,
      infer := fun (_ : ℕ) (_ : ℕ) => Except.ok [],
      model := some 0 }
    { status_code := 404, content := [] } (by decide) rfl (by decide)
  exact ⟨h.1, h.2 rfl⟩

end FoodDetection
